import Mathlib

/-!
Verification of the tap-hubspot-beta extraction engine
(`tap_hubspot_beta/client_base.py`) against its natural-language
specification.

The Python code operates on JSON-like values (dicts, lists, strings,
numbers, booleans, None).  We embed those values shallowly as the
inductive type `JVal`, with Python dicts represented as insertion-ordered
association lists with unique keys, exactly the observable behaviour of
CPython dicts.  Mutating dict operations (`pop`, item assignment,
`append`, `del`) become pure functions returning the updated value, and
Python exceptions (`KeyError`, `AttributeError`, `TypeError`,
`ValueError`, `RuntimeError`) become `Except String` results.
-/

namespace Hubspot

/-- JSON-like values as manipulated by the tap: Python str, int, bool,
None, dict (insertion-ordered association list) and list. -/
inductive JVal : Type where
  | str : String → JVal
  | int : Int → JVal
  | bool : Bool → JVal
  | null : JVal
  | dict : List (String × JVal) → JVal
  | list : List JVal → JVal

/-- A Python dict with string keys: insertion-ordered association list. -/
abbrev JObj := List (String × JVal)

/-- Python truthiness of a value (`if x:`): None, False, 0, "", empty
dict and empty list are falsy, everything else truthy. -/
def truthy : JVal → Bool
  | .null => false
  | .bool b => b
  | .int n => n != 0
  | .str s => s != ""
  | .dict o => !o.isEmpty
  | .list a => !a.isEmpty

/-- Dict lookup `o[k]` / `o.get(k)`: value of the first (only) entry for
the key. -/
def jGet : JObj → String → Option JVal
  | [], _ => none
  | (k, v) :: rest, key => if k = key then some v else jGet rest key

/-- Python `o.get(k, default)`. -/
def jGetD (o : JObj) (key : String) (dflt : JVal) : JVal :=
  (jGet o key).getD dflt

/-- Python `k in o`. -/
def jHasKey (o : JObj) (key : String) : Bool :=
  (jGet o key).isSome

/-- Python `o.pop(k, default)`: remove the entry and return its value,
or the default when absent. -/
def jPopD : JObj → String → JVal → JVal × JObj
  | [], _, dflt => (dflt, [])
  | (k, v) :: rest, key, dflt =>
    if k = key then (v, rest)
    else ((jPopD rest key dflt).1, (k, v) :: (jPopD rest key dflt).2)

/-- Python `o.pop(k)` without a default: `none` models the `KeyError`. -/
def jPop : JObj → String → Option (JVal × JObj)
  | [], _ => none
  | (k, v) :: rest, key =>
    if k = key then some (v, rest)
    else match jPop rest key with
      | some (r, rest') => some (r, (k, v) :: rest')
      | none => none

/-- Python item assignment `o[k] = v`: replace in place when the key
exists (keeping its position), otherwise append at the end. -/
def jSet : JObj → String → JVal → JObj
  | [], key, v => [(key, v)]
  | (k, w) :: rest, key, v =>
    if k = key then (k, v) :: rest else (k, w) :: jSet rest key v

/-- Lexicographic comparison of character sequences by code point, the
ordering Python uses for `str < str` (a strict prefix is smaller). -/
def charsLt : List Char → List Char → Bool
  | [], [] => false
  | [], _ :: _ => true
  | _ :: _, [] => false
  | c :: cs, d :: ds =>
    if c.toNat < d.toNat then true
    else if d.toNat < c.toNat then false
    else charsLt cs ds

/-- Python `a < b` on strings. -/
def strLt (a b : String) : Bool :=
  charsLt a.data b.data

/-- Python ordering comparison `a > b` for the value kinds the tap
actually compares (replication-key values: strings lexicographically by
code point, integers numerically).  Python raises `TypeError` on mixed
kinds; the engine only ever compares homogeneous replication values, so
the mixed case is mapped to `false`. -/
def pyGt : JVal → JVal → Bool
  | .str a, .str b => strLt b a
  | .int a, .int b => b < a
  | _, _ => false

mutual
/-- Python `==` on values: structural on scalars, order-insensitive on
dicts (equal size and every key of the left dict bound to an equal value
in the right one, which for unique keys is exactly CPython dict
equality), element-wise on lists. -/
def pyEq : JVal → JVal → Bool
  | .str a, .str b => a == b
  | .int a, .int b => a == b
  | .bool a, .bool b => a == b
  | .null, .null => true
  | .dict a, .dict b => a.length == b.length && pyEqEntries a b
  | .list a, .list b => pyEqItems a b
  | _, _ => false

/-- Every entry of the first association list is bound, with a
`pyEq`-equal value, in the second one. -/
def pyEqEntries : List (String × JVal) → List (String × JVal) → Bool
  | [], _ => true
  | (k, v) :: rest, b =>
    (match jGet b k with
      | some w => pyEq v w
      | none => false)
    && pyEqEntries rest b

/-- Element-wise `pyEq` on lists of equal length. -/
def pyEqItems : List JVal → List JVal → Bool
  | [], [] => true
  | x :: xs, y :: ys => pyEq x y && pyEqItems xs ys
  | _, _ => false
end

/-! ## StateTracker: `finalize_state_progress_markers`, explicit-state mode

The inner closure `finalize_state_progress_markers(stream_or_partition_state)`
of `hubspotStream.finalize_state_progress_markers` promotes or wipes
progress markers on one stream/partition state dict.  It mutates the
dict in place and returns the leftover progress markers (or `None`); we
return the updated dict together with that result. -/

/-- Final wipe step of the inner closure: pop `progress_markers` (with
default `{}`), drop its auto-generated `Note`, and return the remaining
markers, or `None` when none remain (`progress_markers or None`).
`progress_markers` is a dict whenever present here (the promote step has
already type-checked it), so the non-dict case signals the `TypeError`
Python would raise on `.pop`. -/
def finalize_wipe (st : JObj) : Except String (JObj × Option JObj) :=
  let popped := jPopD st "progress_markers" (.dict [])
  match popped.1 with
  | .dict pm =>
    let pm' := (jPopD pm "Note" .null).2
    .ok (popped.2, if pm'.isEmpty then none else some pm')
  | _ => .error "TypeError: progress_markers is not a dict"

/-- Inner closure `finalize_state_progress_markers(stream_or_partition_state)`
(client_base.py lines 172-193): pop the `replication_key_signpost` and
`starting_replication_value` from the top level of the state, promote
`progress_markers.replication_key` / `.replication_key_value` into the
durable fields (clamping the value down to the signpost when the
signpost is truthy and the value exceeds it), then wipe the remaining
markers.  Errors model the exceptions Python would raise (`KeyError`
when `replication_key_value` is missing next to `replication_key`,
`TypeError` on a non-dict `progress_markers` value). -/
def finalize_inner (st : JObj) : Except String (JObj × Option JObj) :=
  let sp := jPopD st "replication_key_signpost" .null
  let signpost_value := sp.1
  let st1 := (jPopD sp.2 "starting_replication_value" .null).2
  match jGet st1 "progress_markers" with
  | some (.dict pm) =>
    if jHasKey pm "replication_key" then
      match jPop pm "replication_key" with
      | none => .error "unreachable: replication_key checked present"
      | some rkPopped =>
        let st2 := jSet st1 "replication_key" rkPopped.1
        match jPop rkPopped.2 "replication_key_value" with
        | none => .error "KeyError: replication_key_value"
        | some rvPopped =>
          let new_rk_value :=
            if truthy signpost_value && pyGt rvPopped.1 signpost_value then
              signpost_value
            else rvPopped.1
          let st3 := jSet st2 "replication_key_value" new_rk_value
          -- the dict under "progress_markers" is the same (now mutated)
          -- object; write the alias back before the wipe step
          let st4 := jSet st3 "progress_markers" (.dict rvPopped.2)
          finalize_wipe st4
    else finalize_wipe st1
  | some _ => .error "TypeError: progress_markers is not a dict"
  | none => finalize_wipe st1

/-! ## StateTracker: `finalize_state_progress_markers`, whole-stream mode

The outer method walks child streams recursively, then locates or
creates each declared partition's entry inside the durable tap state
`tap_state["bookmarks"][name]["partitions"]`.  A stream is modelled by
its name, its declared partition contexts and its child streams; the
durable tap state is a `JObj` threaded through explicitly. -/

/-- A stream as the finalization logic sees it: `name`, the declared
`partitions` contexts, and `child_streams`. -/
inductive PStream : Type where
  | mk : String → List JObj → List PStream → PStream

/-- Modelled from the spec: the singer-sdk helper
`_get_state_partition_context` (not part of this repository) — with no
state partitioning keys configured it returns the partition context
itself, and `None` stays `None` ("context equality is the partition key
used to find-or-create a partition's state record"). -/
def get_state_partition_context : Option JObj → Option JObj
  | none => none
  | some ctx => some ctx

/-- The generator expression
`next(((i, p) for i, p in enumerate(parts) if p["context"] == spc), (None, None))`:
scan the partitions list left to right for the first entry whose
`"context"` equals (Python `==`) the state partition context, returning
its index and the entry.  Entries inspected before a match must be
dicts carrying a `"context"` key, otherwise Python raises
(`TypeError` / `KeyError`); entries after the first match are never
inspected. -/
def find_partition (spc : JObj) : List JVal → Nat → Except String (Option (Nat × JObj))
  | [], _ => .ok none
  | .dict e :: rest, i =>
    match jGet e "context" with
    | some c =>
      if pyEq c (.dict spc) then .ok (some (i, e))
      else find_partition spc rest (i + 1)
    | none => .error "KeyError: context"
  | _ :: _, _ => .error "TypeError: partition entry is not a dict"

/-- Read the `"partitions"` list bound once before the loop
(`stream_state_partitions: List[dict] = stream_state["partitions"]`). -/
def get_partitions_list (ss : JObj) : Except String (List JVal) :=
  match jGet ss "partitions" with
  | some (.list ps) => .ok ps
  | some _ => .error "TypeError: partitions is not a list"
  | none => .error "KeyError: partitions"

/-- The per-context loop of whole-stream finalization (client_base.py
lines 211-226).  The partitions list is aliased from
`stream_state["partitions"]`, so every `del` / `append` is written back
there; the branch for an empty state partition context finalizes the
stream-level state dict itself in place.  When a context's entry is
found it is deleted from the list and the detached dict is finalized
(`state = found; del stream_state_partitions[index]`); when it is
missing, `state` is bound to the `None` returned by `list.append` and
finalizing it raises `AttributeError`. -/
def finalize_partition_loop : List JObj → JObj → Except String JObj
  | [], ss => .ok ss
  | ctx :: rest, ss => do
    -- `context = context or None`
    let ctxOpt : Option JObj := if ctx.isEmpty then none else some ctx
    let spc := get_state_partition_context ctxOpt
    match spc with
    | some spcDict =>
      if spcDict.isEmpty then
        -- `if state_partition_context:` falsy — finalize stream state
        let (ss, _) ← finalize_inner ss
        finalize_partition_loop rest ss
      else do
        let parts ← get_partitions_list ss
        match ← find_partition spcDict parts 0 with
        | some (index, found) =>
          let parts := parts.eraseIdx index
          let ss := jSet ss "partitions" (.list parts)
          -- the found dict is finalized detached from the durable state
          let _ ← finalize_inner found
          finalize_partition_loop rest ss
        | none =>
          -- `state = stream_state_partitions.append(...)` binds None
          let _ := parts ++ [JVal.dict [("context", .dict spcDict)]]
          .error "AttributeError: NoneType object has no attribute pop"
    | none =>
      -- `state = self.stream_state`, finalized in place
      let (ss, _) ← finalize_inner ss
      finalize_partition_loop rest ss

/-- Whole-stream finalization body after the child-stream recursion
(client_base.py lines 199-227): ensure `bookmarks`, the stream's entry
and its `partitions` list exist inside the tap state, run the
per-context loop over the declared partitions (`self.partitions or [{}]`),
and write the mutated stream state back. -/
def finalize_whole_core (name : String) (partsDecl : List JObj) (ts : JObj) :
    Except String JObj := do
  let ts := if jHasKey ts "bookmarks" then ts else jSet ts "bookmarks" (.dict [])
  let bm ← match jGet ts "bookmarks" with
    | some (.dict b) => Except.ok b
    | some _ => Except.error "TypeError: bookmarks is not a dict"
    | none => Except.error "unreachable: bookmarks ensured present"
  let bm := if jHasKey bm name then bm else jSet bm name (.dict [])
  let ss ← match jGet bm name with
    | some (.dict s) => Except.ok s
    | some _ => Except.error "TypeError: stream state is not a dict"
    | none => Except.error "unreachable: stream entry ensured present"
  let ss := if jHasKey ss "partitions" then ss else jSet ss "partitions" (.list [])
  let contexts := if partsDecl.isEmpty then [([] : JObj)] else partsDecl
  let ss ← finalize_partition_loop contexts ss
  let bm := jSet bm name (.dict ss)
  let ts := jSet ts "bookmarks" (.dict bm)
  .ok ts

mutual
/-- Whole-stream mode of `finalize_state_progress_markers` (lines
195-227): recursively finalize every child stream first, then fail with
`ValueError` when the tap state container is missing, otherwise run the
partition finalization over the durable state. -/
def finalize_whole : PStream → Option JObj → Except String JObj
  | .mk name partsDecl children, ts => do
    let ts ← finalize_children children ts
    match ts with
    | none => .error "ValueError: Cannot write state to missing state dictionary."
    | some t => finalize_whole_core name partsDecl t

/-- Sequential `for child_stream in self.child_streams or []` recursion,
threading the shared tap state. -/
def finalize_children : List PStream → Option JObj → Except String (Option JObj)
  | [], ts => .ok ts
  | c :: cs, ts => do
    let t ← finalize_whole c ts
    finalize_children cs (some t)
end

/-- Entry point `finalize_state_progress_markers(self, state=None)`:
dispatch on `state is None or state == {}` into whole-stream mode,
otherwise apply the inner promote/wipe to the explicitly passed state.
The result is the pair (tap state afterwards, explicit state argument
afterwards). -/
def finalize_state_progress_markers (s : PStream) (ts : Option JObj)
    (state : Option JObj) : Except String (Option JObj × Option JObj) :=
  match state with
  | none => do
    let ts' ← finalize_whole s ts
    .ok (some ts', none)
  | some st =>
    if st.isEmpty then do
      let ts' ← finalize_whole s ts
      .ok (some ts', some st)
    else do
      let (st', _) ← finalize_inner st
      .ok (ts, some st')

/-! ## Paginator: `get_next_page_token` and the request loop

`hubspotStreamSchema.get_next_page_token` inspects the response body; the
loop in `hubspotStream.request_records` fetches a page per token,
yields its records, computes the next token and detects pagination
loops.  Records and `parse_response` are stream-specific and elided: the
loop is modelled at the token level, returning the trace of tokens a
request was attempted with.  The initial token is `None` (`JVal.null`),
and a missing return in Python is `None` as well. -/

/-- `hubspotStreamSchema.get_next_page_token` (client_base.py lines
248-260): when the body's `has-more` is truthy, return an
`{offset: ...}` token if `offset` is truthy, else a `{vidOffset: ...}`
token if `vid-offset` is truthy; in every other case return `None`.
The `previous_token` argument is accepted and ignored, as in the
source. -/
def get_next_page_token (response_json : JObj) (_previous_token : JVal) : JVal :=
  if truthy (jGetD response_json "has-more" .null) then
    let offset := jGetD response_json "offset" .null
    let vid_offset := jGetD response_json "vid-offset" .null
    if truthy offset then .dict [("offset", offset)]
    else if truthy vid_offset then .dict [("vidOffset", vid_offset)]
    else .null
  else .null

/-- How one run of the `request_records` generator ends. -/
inductive LoopEnd : Type where
  | finished : LoopEnd
  | loopDetected : JVal → LoopEnd
  | fuelOut : LoopEnd

/-- The `while not finished` loop of `hubspotStream.request_records`
(client_base.py lines 61-84), at the token level.  `fetch` maps the
page token sent to the response body received (the network); the result
is the list of tokens a request was attempted with, in order, paired
with how the run ended.  Per iteration: request the page for the
current token, compute the next token from the response, raise
`RuntimeError` ("Loop detected in pagination") when the new token is
truthy and Python-equal to the token just used — without attempting
another request — and otherwise continue, finishing when the new token
is falsy.  The structural `fuel` bounds the number of iterations of
this (potentially endless) generator; `fuelOut` marks runs that were
still going. -/
def request_records (fetch : JVal → JObj) : Nat → JVal → List JVal × LoopEnd
  | 0, _ => ([], .fuelOut)
  | fuel + 1, next_page_token =>
    let resp := fetch next_page_token
    -- records of `parse_response(resp)` are yielded here (elided)
    let previous_token := next_page_token
    let new_token := get_next_page_token resp previous_token
    if truthy new_token && pyEq new_token previous_token then
      ([next_page_token], .loopDetected new_token)
    else if !truthy new_token then
      ([next_page_token], .finished)
    else
      (next_page_token :: (request_records fetch fuel new_token).1,
        (request_records fetch fuel new_token).2)

/-! ## RetryPolicy: `validate_response` and the backoff decorator -/

/-- Classification a response receives from `validate_response`. -/
inductive RespClass : Type where
  | success : RespClass
  | retriable : RespClass
  | fatal : RespClass
deriving DecidableEq

/-- `hubspotStream.validate_response` (client_base.py lines 118-132):
any 5xx status, or a status in `[429, 401, 104]`, raises
`RetriableAPIError`; any other 4xx raises `FatalAPIError`; everything
else passes. -/
def validate_response (status : Nat) : RespClass :=
  if (500 ≤ status ∧ status < 600) ∨ status ∈ [429, 401, 104] then .retriable
  else if 400 ≤ status ∧ status < 500 then .fatal
  else .success

/-- The `backoff.expo` wait generator of the backoff library: its n-th
value is `factor * base ** n`. -/
def backoff_expo (base factor : Nat) (n : Nat) : Nat :=
  factor * base ^ n

/-- `hubspotStreamSchema.backoff_wait_generator` (client_base.py lines
272-274): `backoff.expo(factor=3)`, i.e. the generator of waits
`3 * 2 ** n` (the library's default base is 2). -/
def backoff_wait_generator (n : Nat) : Nat :=
  backoff_expo 2 3 n

/-- `hubspotStreamSchema.backoff_max_tries` (client_base.py lines
276-278). -/
def backoff_max_tries : Nat := 8

/-- Outcome of a request run through the retrying decorator. -/
inductive ReqResult : Type where
  | ok : ReqResult
  | fatalErr : ReqResult
  | retriesExhausted : ReqResult
deriving DecidableEq

/-- The decorator produced by `hubspotStream.request_decorator`
(client_base.py lines 230-243), `backoff.on_exception(..., max_tries=...)`,
around `_request`, whose `validate_response` call classifies the
response status.  `status i` is the HTTP status of the i-th attempt
(0-based); `remaining` counts the attempts still allowed.  A retriable
error is retried while attempts remain and re-raised on the last one; a
fatal error propagates immediately (FatalAPIError is not in the
decorator's exception list).  The result counts the attempts actually
made. -/
def run_with_retry (status : Nat → Nat) (i : Nat) : Nat → Nat × ReqResult
  | 0 => (0, .retriesExhausted)
  | remaining + 1 =>
    match validate_response (status i) with
    | .success => (1, .ok)
    | .fatal => (1, .fatalErr)
    | .retriable =>
      if remaining = 0 then (1, .retriesExhausted)
      else
        ((run_with_retry status (i + 1) remaining).1 + 1,
          (run_with_retry status (i + 1) remaining).2)

/-- A request executed through the decorator with the stream's
configured `backoff_max_tries`. -/
def decorated_request (status : Nat → Nat) : Nat × ReqResult :=
  run_with_retry status 0 backoff_max_tries

/-! ## SchemaResolver: `extract_type` and `schema` -/

/-- The semantic field types the tap emits (`th.StringType`,
`th.DateTimeType`, `th.BooleanType`). -/
inductive SemType : Type where
  | string : SemType
  | datetime : SemType
  | boolean : SemType
deriving DecidableEq

/-- `hubspotStream.extract_type` (client_base.py lines 134-147): map a
field's declared `type` tag to a semantic type; unknown or missing tags
fall through to the deliberate `StringType` default, so the mapping is
total and never fails. -/
def extract_type (field : JObj) : SemType :=
  match jGet field "type" with
  | some (.str field_type) =>
    if field_type ∈ ["string", "enumeration", "phone_number", "date", "json",
        "object_coordinates"] then .string
    else if field_type = "number" then .string
    else if field_type = "datetime" then .datetime
    else if field_type = "bool" then .boolean
    else .string
  | _ => .string

/-- A property of the schema: the field name (`field.get("name")`, which
is `None` when absent) and its semantic type. -/
abbrev SchemaProp := JVal × SemType

/-- The field-appending loop of `hubspotStream.schema` (client_base.py
lines 162-166): starting from the current contents of
`base_properties`, append a property for every metadata field not
marked `deleted`, in response order. -/
def schema_build (base_properties : List SchemaProp) (fields : List JObj) :
    List SchemaProp :=
  fields.foldl
    (fun properties field =>
      if truthy (jGetD field "deleted" .null) then properties
      else properties ++ [(jGetD field "name" .null, extract_type field)])
    base_properties

/-- Python dict insertion with `pyEq` key equality: replace the first
matching key in place, else append. -/
def propSet : List SchemaProp → JVal → SemType → List SchemaProp
  | [], key, v => [(key, v)]
  | (k, w) :: rest, key, v =>
    if pyEq k key then (k, v) :: rest else (k, w) :: propSet rest key v

/-- Lookup in the schema dict (`pyEq` key equality). -/
def propGet : List SchemaProp → JVal → Option SemType
  | [], _ => none
  | (k, w) :: rest, key => if pyEq k key then some w else propGet rest key

/-- `th.PropertiesList(*properties).to_dict()` of the singer-sdk typing
module: the properties are merged one after the other into a dict keyed
by field name, so a later duplicate name silently overwrites the value
of an earlier one while keeping its position. -/
def properties_to_dict (properties : List SchemaProp) : List SchemaProp :=
  properties.foldl (fun acc p => propSet acc p.1 p.2) []

/-- `hubspotStream.schema` (client_base.py lines 154-168): bind
`properties` to the class-level `base_properties` list itself (no
copy), append the discovered fields to it, and return the merged dict.
The first component is the contents of that shared `base_properties`
list after the computation (the appends mutate the class attribute in
place, so this is what any stream sharing the attribute sees
afterwards); the second is the returned schema dict. -/
def schema_compute (base_properties : List SchemaProp) (fields : List JObj) :
    List SchemaProp × List SchemaProp :=
  let properties := schema_build base_properties fields
  (properties, properties_to_dict properties)

/-! ## Spec-side auxiliary definitions used in theorem statements -/

/-- The discovered properties as the spec describes them: the fields not
marked deleted, in discovery order, each paired with its mapped type. -/
def discovered_fields (fields : List JObj) : List SchemaProp :=
  (fields.filter (fun field => !truthy (jGetD field "deleted" .null))).map
    (fun field => (jGetD field "name" .null, extract_type field))

/-- Scalar values: the value kinds on which Python `==` coincides with
structural equality (field names are strings in practice, or `None`
when the metadata omits a name). -/
def scalar : JVal → Bool
  | .str _ => true
  | .int _ => true
  | .bool _ => true
  | .null => true
  | .dict _ => false
  | .list _ => false

/-- Python `min(a, b)` on strings: the spec's "clamped downward"
value. -/
def minString (a b : String) : String :=
  if strLt b a then b else a

/-- The value of the LAST entry of an association list bound to a key
(`pyEq` key comparison, stored key on the left): the reference
"last occurrence wins" lookup a Python dict built by repeated insertion
realizes. -/
def lastGet : List SchemaProp → JVal → Option SemType
  | [], _ => none
  | (k, v) :: rest, key =>
    match lastGet rest key with
    | some w => some w
    | none => if pyEq k key then some v else none

/-! ## Helper lemmas -/

theorem jGet_eq_none {o : JObj} {k : String} (h : jHasKey o k = false) :
    jGet o k = none := by
  unfold jHasKey at h
  cases hg : jGet o k with
  | none => rfl
  | some v => rw [hg] at h; simp at h

theorem jPopD_absent {k : String} {d : JVal} :
    ∀ {o : JObj}, jGet o k = none → jPopD o k d = (d, o) := by
  intro o
  induction o with
  | nil => intro _; rfl
  | cons p rest ih =>
    intro h
    obtain ⟨k0, v⟩ := p
    simp only [jGet] at h
    by_cases hk : k0 = k
    · simp [hk] at h
    · simp only [if_neg hk] at h
      simp only [jPopD, if_neg hk, ih h]

theorem schema_build_append (base : List SchemaProp) (fields : List JObj) :
    schema_build base fields = base ++ discovered_fields fields := by
  induction fields generalizing base with
  | nil => simp [schema_build, discovered_fields]
  | cons f fs ih =>
    by_cases hdel : truthy (jGetD f "deleted" .null) = true
    · simp only [schema_build, List.foldl_cons, if_pos hdel] at ih ⊢
      rw [ih base, discovered_fields]
      simp [hdel, discovered_fields]
    · simp only [Bool.not_eq_true] at hdel
      simp only [schema_build, List.foldl_cons, hdel, Bool.false_eq_true,
        if_false] at ih ⊢
      rw [ih (base ++ [(jGetD f "name" JVal.null, extract_type f)]),
        discovered_fields]
      simp [hdel, discovered_fields]

theorem run_all_retriable (status : Nat → Nat)
    (h : ∀ i, validate_response (status i) = .retriable) :
    ∀ rem i, run_with_retry status i (rem + 1) = (rem + 1, .retriesExhausted) := by
  intro rem
  induction rem with
  | zero => intro i; simp [run_with_retry, h i]
  | succ r ih =>
    intro i
    rw [run_with_retry.eq_2, h i]
    simp [Nat.succ_ne_zero, ih (i + 1)]

theorem gnpt_null_or_truthy (body : JObj) (prev : JVal) :
    get_next_page_token body prev = JVal.null ∨
      truthy (get_next_page_token body prev) = true := by
  unfold get_next_page_token
  by_cases h1 : truthy (jGetD body "has-more" JVal.null) = true
  · rw [if_pos h1]
    by_cases h2 : truthy (jGetD body "offset" JVal.null) = true
    · rw [if_pos h2]; right; rfl
    · rw [if_neg h2]
      by_cases h3 : truthy (jGetD body "vid-offset" JVal.null) = true
      · rw [if_pos h3]; right; rfl
      · rw [if_neg h3]; left; rfl
  · rw [if_neg h1]; left; rfl

/-! ## Claims -/

/-- **C1** (counterexample): the claim places the
`replication_key_signpost` inside `progress_markers`.  On that exact
input the code pops the signpost from the top level only, finds none,
and promotes the accumulated value unclamped: finalization yields
`replication_key_value = "2024-02-01"`, not the claimed `"2024-01-15"`
(and hands the signpost back as a leftover marker). -/
theorem claim1_counterexample :
    finalize_inner
        [("progress_markers", JVal.dict
            [("replication_key", JVal.str "updated_at"),
             ("replication_key_value", JVal.str "2024-02-01"),
             ("replication_key_signpost", JVal.str "2024-01-15")])]
      = .ok ([("replication_key", JVal.str "updated_at"),
              ("replication_key_value", JVal.str "2024-02-01")],
             some [("replication_key_signpost", JVal.str "2024-01-15")])
  ∧ ("2024-02-01" : String) ≠ "2024-01-15" :=
  ⟨rfl, by decide⟩

/-- **C1** (amended): for every partition state of the form
`{progress_markers: {replication_key: k, replication_key_value: v},
replication_key_signpost: s}` — the signpost stored as a top-level key,
which is where the code keeps and pops it — explicit-state finalization
yields `replication_key = k` and `replication_key_value = min(v, s)`
(the accumulated value clamped downward to not exceed the truthy
signpost), with no residual `progress_markers` key. -/
theorem claim1_amended (k v s : String) (hs : s ≠ "") :
    finalize_inner
        [("progress_markers", JVal.dict
            [("replication_key", JVal.str k),
             ("replication_key_value", JVal.str v)]),
         ("replication_key_signpost", JVal.str s)]
      = .ok ([("replication_key", JVal.str k),
              ("replication_key_value", JVal.str (minString v s))], none) := by
  simp only [finalize_inner, jPopD, jGet, jPop, jSet, jHasKey, finalize_wipe,
    truthy, pyGt, minString, strLt]
  simp [hs]
  by_cases h : charsLt s.data v.data <;>
    simp [h, jGet, jPop, jPopD]

theorem claim1_witness :
    finalize_inner
        [("progress_markers", JVal.dict
            [("replication_key", JVal.str "updated_at"),
             ("replication_key_value", JVal.str "2024-02-01")]),
         ("replication_key_signpost", JVal.str "2024-01-15")]
      = .ok ([("replication_key", JVal.str "updated_at"),
              ("replication_key_value", JVal.str "2024-01-15")], none) :=
  (claim1_amended "updated_at" "2024-02-01" "2024-01-15" (by decide)).trans rfl

/-- **C2** (code bug, evaluated): whole-stream finalization does not
keep finalized partition entries in the durable state.  With a declared
partition context and no matching entry, `state` is bound to the `None`
returned by `list.append` and finalizing it raises `AttributeError`
instead of finalizing the created entry; with a matching entry present,
the entry is deleted from the durable partitions list and the detached
dict is finalized, so the finalized entry is gone from the durable
state (here: the partitions list ends up empty). -/
theorem claim2_partition_bug :
    finalize_whole (PStream.mk "deals" [[("pid", JVal.str "1")]] []) (some [])
      = .error "AttributeError: NoneType object has no attribute pop"
  ∧ finalize_whole (PStream.mk "deals" [[("pid", JVal.str "1")]] [])
        (some [("bookmarks", JVal.dict [("deals", JVal.dict [("partitions",
          JVal.list [JVal.dict
            [("context", JVal.dict [("pid", JVal.str "1")]),
             ("replication_key", JVal.str "updated_at"),
             ("replication_key_value", JVal.str "2024-01-15")]])])])])
      = .ok [("bookmarks", JVal.dict [("deals",
          JVal.dict [("partitions", JVal.list [])])])] :=
  ⟨rfl, rfl⟩

/-- **C3** (confirmed): in the request loop, when the token computed by
`get_next_page_token` for the next page is truthy and deep-equals
(Python `==`) the token just used to fetch the current page, the engine
raises the pagination-loop `RuntimeError` — raised outside the retrying
decorator, hence fatal and non-retriable — attempting no further
request (the trace stops at the current token); when the new token is
falsy the loop terminates after the current page; otherwise it
continues with the new token.  For the tokens this paginator produces,
falsy coincides with none: `get_next_page_token` returns either `None`
or a truthy (nonempty) dict, as `gnpt_null_or_truthy` records. -/
theorem claim3_pagination_loop (fetch : JVal → JObj) (fuel : Nat) (tok : JVal) :
    (truthy (get_next_page_token (fetch tok) tok) = true →
      pyEq (get_next_page_token (fetch tok) tok) tok = true →
      request_records fetch (fuel + 1) tok
        = ([tok], .loopDetected (get_next_page_token (fetch tok) tok)))
  ∧ (truthy (get_next_page_token (fetch tok) tok) = false →
      request_records fetch (fuel + 1) tok = ([tok], .finished))
  ∧ (truthy (get_next_page_token (fetch tok) tok) = true →
      pyEq (get_next_page_token (fetch tok) tok) tok = false →
      request_records fetch (fuel + 1) tok
        = (tok :: (request_records fetch fuel
              (get_next_page_token (fetch tok) tok)).1,
            (request_records fetch fuel
              (get_next_page_token (fetch tok) tok)).2)) := by
  refine ⟨?_, ?_, ?_⟩
  · intro h1 h2; rw [request_records.eq_2]; simp [h1, h2]
  · intro h1; rw [request_records.eq_2]; simp [h1]
  · intro h1 h2; rw [request_records.eq_2]; simp [h1, h2]

theorem claim3_witness :
    request_records (fun _ => [("has-more", JVal.bool true), ("offset", JVal.int 5)]) 2
        (JVal.dict [("offset", JVal.int 5)])
      = ([JVal.dict [("offset", JVal.int 5)]],
          .loopDetected (JVal.dict [("offset", JVal.int 5)]))
  ∧ request_records (fun _ => [("has-more", JVal.bool false)]) 3 JVal.null
      = ([JVal.null], .finished)
  ∧ request_records (fun _ => [("has-more", JVal.bool true), ("offset", JVal.int 5)]) 2
        JVal.null
      = ([JVal.null, JVal.dict [("offset", JVal.int 5)]],
          .loopDetected (JVal.dict [("offset", JVal.int 5)])) := by
  refine ⟨?_, ?_, ?_⟩
  · exact ((claim3_pagination_loop
      (fun _ => [("has-more", JVal.bool true), ("offset", JVal.int 5)]) 1
      (JVal.dict [("offset", JVal.int 5)])).1 rfl rfl).trans rfl
  · exact (claim3_pagination_loop
      (fun _ => [("has-more", JVal.bool false)]) 2 JVal.null).2.1 rfl
  · exact ((claim3_pagination_loop
      (fun _ => [("has-more", JVal.bool true), ("offset", JVal.int 5)]) 1
      JVal.null).2.2 rfl rfl).trans rfl

/-- **C4** (counterexample): the wait generator is `backoff.expo` with
`factor=3` over the library's default base 2, so the waits are 3, 6,
12, ... — the second wait is 6, not the 9 that "proportional to
3^attempt" would force. -/
theorem claim4_counterexample :
    backoff_wait_generator 0 = 3
  ∧ backoff_wait_generator 1 = 6
  ∧ backoff_wait_generator 1 ≠ 3 * backoff_wait_generator 0 :=
  ⟨rfl, rfl, by decide⟩

/-- **C4** (amended): statuses 401, 429 and every 5xx are classified
retriable, and a request whose attempts all fail retriably is retried
up to 8 attempts before the error surfaces; any other 4xx is classified
fatal and surfaces on the first attempt with no retry; the backoff wait
before retry n is `3 * 2 ^ n` (exponential base 2 with factor 3), not
proportional to `3 ^ n`. -/
theorem claim4_amended :
    (∀ s : Nat, s = 401 ∨ s = 429 ∨ (500 ≤ s ∧ s < 600) →
      validate_response s = .retriable)
  ∧ (∀ status : Nat → Nat, (∀ i, validate_response (status i) = .retriable) →
      decorated_request status = (8, .retriesExhausted))
  ∧ (∀ s : Nat, 400 ≤ s → s < 500 → s ≠ 401 → s ≠ 429 →
      validate_response s = .fatal)
  ∧ (∀ status : Nat → Nat, validate_response (status 0) = .fatal →
      decorated_request status = (1, .fatalErr))
  ∧ (∀ n, backoff_wait_generator n = 3 * 2 ^ n) := by
  refine ⟨?_, ?_, ?_, ?_, ?_⟩
  · intro s hs
    unfold validate_response
    simp only [List.mem_cons, List.not_mem_nil, or_false]
    split_ifs <;> first | rfl | omega
  · intro status h
    exact run_all_retriable status h 7 0
  · intro s h1 h2 h3 h4
    unfold validate_response
    simp only [List.mem_cons, List.not_mem_nil, or_false]
    split_ifs <;> first | rfl | omega
  · intro status h
    show run_with_retry status 0 (7 + 1) = (1, .fatalErr)
    rw [run_with_retry.eq_2, h]
  · intro n; rfl

theorem claim4_witness :
    validate_response 503 = .retriable
  ∧ decorated_request (fun _ => 429) = (8, .retriesExhausted)
  ∧ validate_response 404 = .fatal
  ∧ decorated_request (fun _ => 404) = (1, .fatalErr)
  ∧ backoff_wait_generator 1 = 6 :=
  ⟨claim4_amended.1 503 (by omega),
   claim4_amended.2.1 (fun _ => 429)
     (fun _ => claim4_amended.1 429 (by omega)),
   claim4_amended.2.2.1 404 (by omega) (by omega) (by omega) (by omega),
   claim4_amended.2.2.2.1 (fun _ => 404)
     (claim4_amended.2.2.1 404 (by omega) (by omega) (by omega) (by omega)),
   (claim4_amended.2.2.2.2 1).trans rfl⟩

/-- **C5** (counterexample): a response body with a truthy `has-more`
but neither `offset` nor `vid-offset` makes `get_next_page_token`
return none, so "returns none exactly when has-more is false or absent"
fails in the only-if direction. -/
theorem claim5_counterexample :
    get_next_page_token [("has-more", JVal.bool true)] JVal.null = JVal.null
  ∧ truthy (jGetD [("has-more", JVal.bool true)] "has-more" JVal.null) = true :=
  ⟨rfl, rfl⟩

/-- **C5** (amended): `get_next_page_token` returns none exactly when
the body's `has-more` flag is falsy/absent or when both the `offset`
and `vid-offset` continuation values are falsy/absent; when `has-more`
is truthy it returns an offset-style token if `offset` is truthy,
falling back to a vidOffset-style token if `vid-offset` is truthy. -/
theorem claim5_amended (body : JObj) (prev : JVal) :
    (get_next_page_token body prev = JVal.null ↔
      (truthy (jGetD body "has-more" JVal.null) = false ∨
        (truthy (jGetD body "offset" JVal.null) = false ∧
          truthy (jGetD body "vid-offset" JVal.null) = false)))
  ∧ (truthy (jGetD body "has-more" JVal.null) = true →
      truthy (jGetD body "offset" JVal.null) = true →
      get_next_page_token body prev
        = .dict [("offset", jGetD body "offset" JVal.null)])
  ∧ (truthy (jGetD body "has-more" JVal.null) = true →
      truthy (jGetD body "offset" JVal.null) = false →
      truthy (jGetD body "vid-offset" JVal.null) = true →
      get_next_page_token body prev
        = .dict [("vidOffset", jGetD body "vid-offset" JVal.null)]) := by
  unfold get_next_page_token
  by_cases h1 : truthy (jGetD body "has-more" JVal.null) <;>
    by_cases h2 : truthy (jGetD body "offset" JVal.null) <;>
      by_cases h3 : truthy (jGetD body "vid-offset" JVal.null) <;>
        simp [h1, h2, h3]

theorem claim5_witness :
    get_next_page_token [("has-more", JVal.bool true), ("offset", JVal.int 5)]
        JVal.null = JVal.dict [("offset", JVal.int 5)]
  ∧ get_next_page_token [("has-more", JVal.bool true), ("vid-offset", JVal.int 7)]
        JVal.null = JVal.dict [("vidOffset", JVal.int 7)]
  ∧ get_next_page_token [("has-more", JVal.bool false)] JVal.null = JVal.null :=
  ⟨((claim5_amended [("has-more", JVal.bool true), ("offset", JVal.int 5)]
      JVal.null).2.1 rfl rfl).trans rfl,
   ((claim5_amended [("has-more", JVal.bool true), ("vid-offset", JVal.int 7)]
      JVal.null).2.2 rfl rfl rfl).trans rfl,
   (claim5_amended [("has-more", JVal.bool false)] JVal.null).1.mpr
     (Or.inl rfl)⟩

/-- **C10** (confirmed): every status strictly below 400 passes
`validate_response` without error, except 104 which is classified
retriable (it sits in the `[429, 401, 104]` retry list). -/
theorem claim10_below_400 (s : Nat) (h : s < 400) :
    validate_response s = if s = 104 then .retriable else .success := by
  unfold validate_response
  simp only [List.mem_cons, List.not_mem_nil, or_false]
  split_ifs <;> first | rfl | omega

theorem claim10_witness :
    validate_response 104 = .retriable
  ∧ validate_response 200 = .success
  ∧ validate_response 304 = .success :=
  ⟨(claim10_below_400 104 (by omega)).trans rfl,
   (claim10_below_400 200 (by omega)).trans rfl,
   (claim10_below_400 304 (by omega)).trans rfl⟩

/-- **C6** (confirmed): type resolution maps
string/enumeration/phone_number/date/json/object_coordinates to string,
number to string, datetime to datetime, bool to boolean, and any
unknown tag to string (the mapping is a total function, so the schema
build never fails on a type); schema building appends exactly the
non-deleted fields to the declared base properties; and on the spec's
example the resolved schema contains `a` and `b` as strings and
excludes the deleted `c`. -/
theorem claim6_type_mapping :
    (∀ t : String, t ∈ ["string", "enumeration", "phone_number", "date", "json",
        "object_coordinates"] → extract_type [("type", JVal.str t)] = .string)
  ∧ extract_type [("type", JVal.str "number")] = .string
  ∧ extract_type [("type", JVal.str "datetime")] = .datetime
  ∧ extract_type [("type", JVal.str "bool")] = .boolean
  ∧ (∀ t : String, t ∉ ["string", "enumeration", "phone_number", "date", "json",
        "object_coordinates", "number", "datetime", "bool"] →
      extract_type [("type", JVal.str t)] = .string)
  ∧ (∀ base fields, schema_build base fields = base ++ discovered_fields fields)
  ∧ properties_to_dict (schema_build []
      [[("name", JVal.str "a"), ("type", JVal.str "string")],
       [("name", JVal.str "b"), ("type", JVal.str "number")],
       [("name", JVal.str "c"), ("type", JVal.str "bool"),
        ("deleted", JVal.bool true)]])
      = [(JVal.str "a", SemType.string), (JVal.str "b", SemType.string)] := by
  refine ⟨?_, rfl, rfl, rfl, ?_, schema_build_append, rfl⟩
  · intro t ht
    simp [extract_type, jGet, ht]
  · intro t ht
    simp only [List.mem_cons, List.not_mem_nil, or_false, not_or] at ht
    obtain ⟨n1, n2, n3, n4, n5, n6, n7, n8, n9⟩ := ht
    simp [extract_type, jGet, List.mem_cons, n1, n2, n3, n4, n5, n6, n7, n8, n9]

theorem claim6_witness :
    extract_type [("type", JVal.str "enumeration")] = .string
  ∧ extract_type [("type", JVal.str "fancy_new_type")] = .string :=
  ⟨claim6_type_mapping.1 "enumeration" (by decide),
   claim6_type_mapping.2.2.2.2.1 "fancy_new_type" (by decide)⟩

/-- The inner finalization is the identity on marker-free states: with
no `progress_markers`, no `replication_key_signpost` and no
`starting_replication_value` present, every pop is a no-op and nothing
is promoted. -/
theorem finalize_inner_marker_free {st : JObj}
    (h1 : jHasKey st "progress_markers" = false)
    (h2 : jHasKey st "replication_key_signpost" = false)
    (h3 : jHasKey st "starting_replication_value" = false) :
    finalize_inner st = .ok (st, none) := by
  unfold finalize_inner finalize_wipe
  rw [jPopD_absent (jGet_eq_none h2)]
  simp only
  rw [jPopD_absent (jGet_eq_none h3)]
  simp only
  rw [jGet_eq_none h1]
  rw [jPopD_absent (jGet_eq_none h1)]
  rfl

/-- **C8** (counterexample): the empty dict is an already-finalized
(marker-free) state, but passing it to `finalize_state_progress_markers`
dispatches into whole-stream mode (`state is None or state == {}`),
which deletes the matching partition entry from the durable bookmark:
the call is not a no-op and the durable bookmark changes (its
partitions list is emptied; the second conjunct is the Python `!=` of
the tap state before and after). -/
theorem claim8_counterexample :
    finalize_state_progress_markers (PStream.mk "deals" [[("pid", JVal.str "1")]] [])
        (some [("bookmarks", JVal.dict [("deals", JVal.dict [("partitions",
          JVal.list [JVal.dict
            [("context", JVal.dict [("pid", JVal.str "1")]),
             ("replication_key", JVal.str "updated_at"),
             ("replication_key_value", JVal.str "2024-01-15")]])])])])
        (some [])
      = .ok (some [("bookmarks", JVal.dict [("deals",
          JVal.dict [("partitions", JVal.list [])])])], some [])
  ∧ pyEq
      (JVal.dict [("bookmarks", JVal.dict [("deals",
        JVal.dict [("partitions", JVal.list [])])])])
      (JVal.dict [("bookmarks", JVal.dict [("deals", JVal.dict [("partitions",
        JVal.list [JVal.dict
          [("context", JVal.dict [("pid", JVal.str "1")]),
           ("replication_key", JVal.str "updated_at"),
           ("replication_key_value", JVal.str "2024-01-15")]])])])])
      = false :=
  ⟨rfl, rfl⟩

/-- **C8** (amended): for every NONEMPTY already-finalized state — one
containing no `progress_markers`, no `replication_key_signpost` and no
`starting_replication_value` — calling `finalize_state_progress_markers`
on it again is a no-op: the state is returned unchanged and the durable
tap state is untouched.  (An empty dict instead dispatches into
whole-stream mode, which is not a no-op — see the counterexample.) -/
theorem claim8_amended (s : PStream) (ts : Option JObj) (st : JObj)
    (hne : st.isEmpty = false)
    (h1 : jHasKey st "progress_markers" = false)
    (h2 : jHasKey st "replication_key_signpost" = false)
    (h3 : jHasKey st "starting_replication_value" = false) :
    finalize_state_progress_markers s ts (some st) = .ok (ts, some st) := by
  unfold finalize_state_progress_markers
  simp only [hne, Bool.false_eq_true, if_false]
  rw [finalize_inner_marker_free h1 h2 h3]
  rfl

theorem claim8_witness :
    finalize_state_progress_markers (PStream.mk "deals" [] [])
        (some [("bookmarks", JVal.dict [])])
        (some [("replication_key", JVal.str "updated_at"),
               ("replication_key_value", JVal.str "2024-01-15"),
               ("partitions", JVal.list [])])
      = .ok (some [("bookmarks", JVal.dict [])],
             some [("replication_key", JVal.str "updated_at"),
                   ("replication_key_value", JVal.str "2024-01-15"),
                   ("partitions", JVal.list [])]) :=
  claim8_amended (PStream.mk "deals" [] []) (some [("bookmarks", JVal.dict [])])
    [("replication_key", JVal.str "updated_at"),
     ("replication_key_value", JVal.str "2024-01-15"),
     ("partitions", JVal.list [])] rfl rfl rfl rfl

/-- **C9** (confirmed): the schema computation appends every discovered
non-deleted field to the very `base_properties` list it started from,
so the shared class-level list afterwards equals the old list followed
by the discovered fields — and whenever at least one field was
discovered it is no longer equal to its original value (any stream
sharing the attribute sees the extended list). -/
theorem claim9_base_properties_mutation (base : List SchemaProp)
    (fields : List JObj) :
    (schema_compute base fields).1 = base ++ discovered_fields fields
  ∧ (discovered_fields fields ≠ [] → (schema_compute base fields).1 ≠ base) := by
  constructor
  · exact schema_build_append base fields
  · intro hne heq
    apply hne
    have h2 : base ++ discovered_fields fields = base := by
      rw [← schema_build_append base fields]; exact heq
    have h3 := congrArg List.length h2
    simp only [List.length_append] at h3
    have h4 : (discovered_fields fields).length = 0 := by omega
    exact List.eq_nil_of_length_eq_zero h4

theorem claim9_witness :
    (schema_compute [] [[("name", JVal.str "a"), ("type", JVal.str "string")]]).1
      ≠ []
  ∧ (schema_compute [] [[("name", JVal.str "a"), ("type", JVal.str "string")]]).1
      = [(JVal.str "a", SemType.string)] :=
  ⟨(claim9_base_properties_mutation []
      [[("name", JVal.str "a"), ("type", JVal.str "string")]]).2
      (List.cons_ne_nil _ _),
   rfl⟩

/-- On scalar values (and every value compared against one), Python
`==` is structural equality. -/
theorem pyEq_scalar_iff {a b : JVal} (h : scalar a = true ∨ scalar b = true) :
    pyEq a b = true ↔ a = b := by
  cases a <;> cases b <;> simp_all [pyEq, scalar]

/-- One dict insertion, observed through lookup: the inserted key now
maps to the new value, every other key is unchanged (keys scalar). -/
theorem propGet_propSet {k0 : JVal} {v0 : SemType} {key : JVal} :
    ∀ {acc : List SchemaProp}, (∀ p ∈ acc, scalar p.1 = true) →
    propGet (propSet acc k0 v0) key
      = if pyEq k0 key = true then some v0 else propGet acc key := by
  intro acc
  induction acc with
  | nil => intro _; rfl
  | cons p rest ih =>
    intro ha
    obtain ⟨k, w⟩ := p
    have hk : scalar k = true := ha (k, w) (List.mem_cons_self _ _)
    have hrest : ∀ p ∈ rest, scalar p.1 = true := fun p hp =>
      ha p (List.mem_cons_of_mem _ hp)
    by_cases hkk0 : pyEq k k0 = true
    · have hek : k = k0 := (pyEq_scalar_iff (Or.inl hk)).mp hkk0
      subst hek
      simp only [propSet, if_pos hkk0, propGet]
      by_cases hq : pyEq k key = true <;> simp [hq]
    · simp only [propSet, if_neg hkk0, propGet]
      rw [ih hrest]
      by_cases hq1 : pyEq k key = true
      · have hek : k = key := (pyEq_scalar_iff (Or.inl hk)).mp hq1
        by_cases hq2 : pyEq k0 key = true
        · exfalso
          have hscalkey : scalar key = true := hek ▸ hk
          have hek0 : k0 = key := (pyEq_scalar_iff (Or.inr hscalkey)).mp hq2
          apply hkk0
          rw [hek, hek0]
          exact (pyEq_scalar_iff (Or.inl hscalkey)).mpr rfl
        · simp [hq1, hq2]
      · simp [hq1]

/-- Dict insertion preserves scalarity of the stored keys. -/
theorem propSet_scalar_keys {k0 : JVal} {v0 : SemType} (hk : scalar k0 = true) :
    ∀ {acc : List SchemaProp}, (∀ p ∈ acc, scalar p.1 = true) →
    ∀ p ∈ propSet acc k0 v0, scalar p.1 = true := by
  intro acc
  induction acc with
  | nil =>
    intro _ p hp
    simp only [propSet, List.mem_singleton] at hp
    rw [hp]
    exact hk
  | cons q rest ih =>
    intro ha p hp
    obtain ⟨k, w⟩ := q
    have hrest : ∀ p ∈ rest, scalar p.1 = true := fun p hp =>
      ha p (List.mem_cons_of_mem _ hp)
    by_cases h : pyEq k k0 = true
    · simp only [propSet, if_pos h] at hp
      rcases List.mem_cons.mp hp with h1 | h2
      · rw [h1]
        exact ha (k, w) (List.mem_cons_self _ _)
      · exact ha p (List.mem_cons_of_mem _ h2)
    · simp only [propSet, if_neg h] at hp
      rcases List.mem_cons.mp hp with h1 | h2
      · rw [h1]
        exact ha (k, w) (List.mem_cons_self _ _)
      · exact ih hrest p h2

/-- Inserting an already-present key leaves the key list unchanged. -/
theorem propSet_keys_mem {k0 : JVal} {v0 : SemType} :
    ∀ {acc : List SchemaProp}, (∀ p ∈ acc, scalar p.1 = true) →
      k0 ∈ acc.map Prod.fst →
      (propSet acc k0 v0).map Prod.fst = acc.map Prod.fst := by
  intro acc
  induction acc with
  | nil => intro _ hm; simp at hm
  | cons q rest ih =>
    intro ha hm
    obtain ⟨k, w⟩ := q
    have hk : scalar k = true := ha (k, w) (List.mem_cons_self _ _)
    have hrest : ∀ p ∈ rest, scalar p.1 = true := fun p hp =>
      ha p (List.mem_cons_of_mem _ hp)
    by_cases h : pyEq k k0 = true
    · simp [propSet, if_pos h]
    · have hne : k ≠ k0 := fun he =>
        h ((pyEq_scalar_iff (Or.inl hk)).mpr he)
      simp only [List.map_cons, List.mem_cons] at hm
      rcases hm with h1 | h2
      · exact absurd h1.symm hne
      · simp [propSet, if_neg h, ih hrest h2]

/-- Inserting a fresh key appends it at the end of the key list. -/
theorem propSet_keys_not_mem {k0 : JVal} {v0 : SemType} :
    ∀ {acc : List SchemaProp}, (∀ p ∈ acc, scalar p.1 = true) →
      k0 ∉ acc.map Prod.fst →
      (propSet acc k0 v0).map Prod.fst = acc.map Prod.fst ++ [k0] := by
  intro acc
  induction acc with
  | nil => intro _ _; rfl
  | cons q rest ih =>
    intro ha hm
    obtain ⟨k, w⟩ := q
    have hk : scalar k = true := ha (k, w) (List.mem_cons_self _ _)
    have hrest : ∀ p ∈ rest, scalar p.1 = true := fun p hp =>
      ha p (List.mem_cons_of_mem _ hp)
    simp only [List.map_cons, List.mem_cons, not_or] at hm
    by_cases h : pyEq k k0 = true
    · exact absurd ((pyEq_scalar_iff (Or.inl hk)).mp h).symm hm.1
    · simp [propSet, if_neg h, ih hrest hm.2]

/-- Dict insertion preserves distinctness of the stored keys. -/
theorem propSet_nodup {k0 : JVal} {v0 : SemType} :
    ∀ {acc : List SchemaProp}, (∀ p ∈ acc, scalar p.1 = true) →
      (acc.map Prod.fst).Nodup → ((propSet acc k0 v0).map Prod.fst).Nodup := by
  intro acc ha hnd
  by_cases hm : k0 ∈ acc.map Prod.fst
  · rw [propSet_keys_mem ha hm]; exact hnd
  · rw [propSet_keys_not_mem ha hm]
    simp [List.nodup_append, hnd, hm]

/-- Folding dict insertions over a property list, starting from any
accumulator with scalar keys: keys stay scalar, key distinctness is
preserved, and lookup sees the last inserted value for each key,
falling back to the accumulator. -/
theorem ptd_fold (props : List SchemaProp) :
    ∀ acc : List SchemaProp, (∀ p ∈ props, scalar p.1 = true) →
      (∀ p ∈ acc, scalar p.1 = true) →
      ((∀ p ∈ props.foldl (fun a p => propSet a p.1 p.2) acc, scalar p.1 = true)
      ∧ ((acc.map Prod.fst).Nodup →
          ((props.foldl (fun a p => propSet a p.1 p.2) acc).map Prod.fst).Nodup)
      ∧ ∀ key, propGet (props.foldl (fun a p => propSet a p.1 p.2) acc) key
          = (match lastGet props key with
              | some v => some v
              | none => propGet acc key)) := by
  induction props with
  | nil =>
    intro acc _ hacc
    exact ⟨hacc, fun h => h, fun key => by simp [lastGet]⟩
  | cons q ps ih =>
    intro acc hp hacc
    obtain ⟨k0, v0⟩ := q
    have hk0 : scalar k0 = true := hp (k0, v0) (List.mem_cons_self _ _)
    have hps : ∀ p ∈ ps, scalar p.1 = true := fun p h =>
      hp p (List.mem_cons_of_mem _ h)
    have hacc2 : ∀ p ∈ propSet acc k0 v0, scalar p.1 = true :=
      propSet_scalar_keys hk0 hacc
    obtain ⟨ih1, ih2, ih3⟩ := ih (propSet acc k0 v0) hps hacc2
    refine ⟨ih1, fun hnd => ih2 (propSet_nodup hacc hnd), fun key => ?_⟩
    show propGet (ps.foldl (fun a p => propSet a p.1 p.2) (propSet acc k0 v0)) key
      = _
    rw [ih3 key]
    simp only [lastGet]
    cases hl : lastGet ps key with
    | some w => simp
    | none =>
      simp only
      rw [propGet_propSet hacc]
      by_cases hq : pyEq k0 key = true <;> simp [hq]

/-- **C7** (counterexample): with base property `a : datetime` and a
discovered field `a : string`, the resolved schema dict maps `a` to
string — the LATER duplicate silently overrides the earlier
definition, so "first occurrence wins" is false. -/
theorem claim7_counterexample :
    properties_to_dict (schema_build [(JVal.str "a", SemType.datetime)]
        [[("name", JVal.str "a"), ("type", JVal.str "string")]])
      = [(JVal.str "a", SemType.string)]
  ∧ SemType.string ≠ SemType.datetime :=
  ⟨rfl, by decide⟩

/-- **C7** (amended): the property list starts from the declared base
fields and appends the discovered non-deleted fields preserving
discovery order (no deduplication at the list level); converting the
list to the schema dict keeps each (scalar) name exactly once — keys of
the result are distinct — with a later duplicate silently overriding
the value of an earlier one (last occurrence wins), the first
occurrence keeping its position. -/
theorem claim7_schema_names :
    (∀ base fields, schema_build base fields = base ++ discovered_fields fields)
  ∧ (∀ props : List SchemaProp, (∀ p ∈ props, scalar p.1 = true) →
      ((properties_to_dict props).map Prod.fst).Nodup
      ∧ ∀ key, propGet (properties_to_dict props) key = lastGet props key) := by
  refine ⟨schema_build_append, fun props hs => ?_⟩
  obtain ⟨h1, h2, h3⟩ := ptd_fold props [] hs (by simp)
  refine ⟨h2 (by simp), fun key => ?_⟩
  show propGet (props.foldl (fun a p => propSet a p.1 p.2) []) key = _
  rw [h3 key]
  cases lastGet props key <;> simp [propGet]

theorem claim7_witness :
    ((properties_to_dict [(JVal.str "a", SemType.datetime),
        (JVal.str "a", SemType.string)]).map Prod.fst).Nodup
  ∧ propGet (properties_to_dict [(JVal.str "a", SemType.datetime),
        (JVal.str "a", SemType.string)]) (JVal.str "a") = some SemType.string :=
  ⟨(claim7_schema_names.2 _ (by decide)).1,
   ((claim7_schema_names.2 _ (by decide)).2 (JVal.str "a")).trans rfl⟩

end Hubspot
